import Mathlib

/-!
Verification of the pluggable-capability connection and dispatch system of
this repository against its specification.

The development shallowly embeds the Go sources:
  * `src/pkg/components/middleware/http/pluggable.go` — the per-request
    command-streaming middleware protocol (`commandHandler`, and the
    receive loop of `newGRPCMiddleware`);
  * `src/pkg/components/pluggable/grpc.go` — the gRPC connector
    (`socketPathFor`, `Dial`, `Ping`);
  * `src/pkg/runtime/options.go` — the capability loader
    (`WithPluggables`, `useOption`, the `With...` option builders);
  * the capability registry, whose implementation is outside the staged
    sources and is modelled from the spec and from
    `src/pkg/components/pluggable/registry_test.go`.

Go byte slices are modelled as `String` (byte strings), Go `int`/`int32`
as `Int`, header collections as association lists in storage order, and a
Go `map[string]string` as an association list holding each key at most
once, built by insertion in visit order (later same-key insertions
overwrite in place, as Go map assignment does). External effects (the gRPC
transport, the plugin's stream, the next handler of the middleware chain)
are parameters of the embedded functions, so every behaviour of those
collaborators is quantified over.
-/

namespace Dapr

/-! ## Header collections -/

/-- One step of building or updating a keyed collection of string pairs:
if some entry already has key `key`, the value of the first such entry is
replaced in place; otherwise `(key, value)` is appended at the end.

This is both fasthttp's header `Set` (`args.go` `setArg`: scan for the
first entry with the given key, overwrite its value, else append) and Go
map assignment `m[key] = value` on an association-list representation of
`map[string]string` (where each key occurs at most once, so "first entry"
is "the entry"). -/
def headerSet : List (String × String) → String → String → List (String × String)
  | [], key, value => [(key, value)]
  | kv :: rest, key, value =>
    if kv.1 = key then (kv.1, value) :: rest
    else kv :: headerSet rest key value

/-- Folding `headerSet` over a list of pairs, starting from `acc`. With
`acc` a request's stored headers this is the loop
`for k, v := range cmd.Headers { header.Set(k, v) }`; with `acc = []` it
is the construction of a Go `map[string]string` by visiting entries in
order (`headers[string(key)] = string(value)` inside `VisitAll` /
`VisitAllInOrder`). -/
def foldPut (acc : List (String × String)) (l : List (String × String)) :
    List (String × String) :=
  l.foldl (fun m kv => headerSet m kv.1 kv.2) acc

/-- The Go map `map[string]string` collected from `hdrs` by visiting its
entries in storage order: among same-named entries the last visited value
wins, and each key appears at most once in the result. -/
def mapCollect (hdrs : List (String × String)) : List (String × String) :=
  foldPut [] hdrs

/-- The merge loop of the `SetRequestHeaders` / `SetResponseHeaders`
dispatch: every pair of `toSet` is `Set` into the stored headers `hdrs`,
in iteration order. -/
def setHeaders (hdrs : List (String × String)) (toSet : List (String × String)) :
    List (String × String) :=
  foldPut hdrs toSet

/-- The value of the first entry of `l` whose key is `key`, if any. On a
map-shaped list (each key at most once) this is the map lookup. -/
def lookupHdr : List (String × String) → String → Option String
  | [], _ => none
  | kv :: rest, key => if kv.1 = key then some kv.2 else lookupHdr rest key

/-- The value of the last entry of `l` whose key is `key`, if any: the
value a visit-in-order map collection retains for `key`. -/
def lastValue (l : List (String × String)) (key : String) : Option String :=
  lookupHdr l.reverse key

/-- Left-biased choice on optional strings (`orElseOpt a b` is `a` when
`a` is `some`, else `b`). -/
def orElseOpt : Option String → Option String → Option String
  | some v, _ => some v
  | none, o => o

/-! ## The middleware request/response state

The slice of a fasthttp `RequestCtx` the command protocol observes and
mutates: request method, target URI, request headers, request body,
response headers, response status code and response body.

fasthttp's `RequestHeader` keeps the raw received header bytes
(`rawHeaders`) alongside its parsed representation. `Header.Set` (and
what the host forwards downstream) updates only the parsed
representation; `VisitAllInOrder` — the visitor `GetRequestHeaders`
uses — reparses the raw received bytes, because receipt order is only
recoverable there, and `Set` never updates them. The state therefore
carries both: `rawReqHeaders`, the immutable received header lines in
receipt order, and `reqHeaders`, the parsed mutable header list
`Header.Set` updates. Header keys are modelled as opaque strings
(fasthttp's canonicalisation of key spelling is not modelled; it is
injective, so nothing below depends on it). -/

structure RequestCtx where
  method : String
  uri : String
  rawReqHeaders : List (String × String)
  reqHeaders : List (String × String)
  reqBody : String
  respHeaders : List (String × String)
  respStatus : Int
  respBody : String
deriving DecidableEq

/-- fasthttp `RequestCtx.Error(msg, statusCode)`: reset the response, then
set the given status code and the message as the body. (The default
`Content-Type` header fasthttp sets on the reset response is not
modelled.) -/
def ctxError (ctx : RequestCtx) (msg : String) (statusCode : Int) : RequestCtx :=
  { ctx with respHeaders := [], respStatus := statusCode, respBody := msg }

/-! ## The command protocol messages -/

/-- The `Command` protocol message, a tagged union; `unset` stands for a
`Command` whose oneof field is nil or holds no variant the switch in
`commandHandler` recognises. -/
inductive Command where
  | getReqBody
  | getRespBody
  | getReqHeaders
  | getRespHeaders
  | setReqHeaders (headers : List (String × String)) (method : String) (uri : String)
  | setRespHeaders (headers : List (String × String))
  | setRespStatus (statusCode : Int)
  | setReqBody (data : String)
  | setRespBody (data : String)
  | execNext
  | unset
deriving DecidableEq

/-- The `CommandResponse` protocol message: one variant per read-type
command. -/
inductive CommandResponse where
  | getReqBody (data : String)
  | getRespBody (data : String)
  | getReqHeaders (method : String) (uri : String) (headers : List (String × String))
  | getRespHeaders (headers : List (String × String))
deriving DecidableEq

/-- Whether a command is one of the four read-type commands, the ones
whose dispatch sends a `CommandResponse` through the stream. -/
def Command.isReadCommand : Command → Bool
  | .getReqBody | .getRespBody | .getReqHeaders | .getRespHeaders => true
  | _ => false

/-- The `CommandResponse` the dispatch of `cmd` sends for the state `ctx`
(`none` for the commands that send nothing). -/
def readResponse (ctx : RequestCtx) : Command → Option CommandResponse
  | .getReqBody => some (.getReqBody ctx.reqBody)
  | .getRespBody => some (.getRespBody ctx.respBody)
  | .getReqHeaders =>
      some (.getReqHeaders ctx.method ctx.uri (mapCollect ctx.rawReqHeaders))
  | .getRespHeaders => some (.getRespHeaders (mapCollect ctx.respHeaders))
  | _ => none

/-! ## Command dispatch (`commandHandler`) -/

/-- The dispatch of one command against the live request/response state:
the switch in `commandHandler` of
`src/pkg/components/middleware/http/pluggable.go`.

`h` is the next handler of the host's processing chain, invoked in-line
by `ExecuteNext`. `sendErr` is the error the callback (`client.Send`)
returns if the dispatch sends a response (`none` for a successful send);
it is a parameter, so the theorems below hold for every behaviour of the
transport. The result is the state after the dispatch, the response sent
(if any), and the error the handler returns (the callback's error on the
read-type commands, `nil` otherwise). -/
def commandHandler (h : RequestCtx → RequestCtx) (sendErr : Option String)
    (ctx : RequestCtx) (cmd : Command) :
    RequestCtx × Option CommandResponse × Option String :=
  match cmd with
  | .getReqBody => (ctx, some (.getReqBody ctx.reqBody), sendErr)
  | .getRespBody => (ctx, some (.getRespBody ctx.respBody), sendErr)
  | .getRespHeaders =>
      (ctx, some (.getRespHeaders (mapCollect ctx.respHeaders)), sendErr)
  | .getReqHeaders =>
      (ctx,
        some (.getReqHeaders ctx.method ctx.uri (mapCollect ctx.rawReqHeaders)),
        sendErr)
  | .execNext => (h ctx, none, none)
  | .setReqHeaders headers method uri =>
      let ctx1 := { ctx with reqHeaders := setHeaders ctx.reqHeaders headers }
      let ctx2 := if method = "" then ctx1 else { ctx1 with method := method }
      let ctx3 := if uri = "" then ctx2 else { ctx2 with uri := uri }
      (ctx3, none, none)
  | .setRespHeaders headers =>
      ({ ctx with respHeaders := setHeaders ctx.respHeaders headers }, none, none)
  | .setRespStatus statusCode => ({ ctx with respStatus := statusCode }, none, none)
  | .setReqBody data => ({ ctx with reqBody := data }, none, none)
  | .setRespBody data => ({ ctx with respBody := data }, none, none)
  | .unset => (ctx, none, none)

/-! ## The per-request receive loop (`newGRPCMiddleware`) -/

/-- What one receive attempt on the stream yields: end of stream
(`io.EOF`), a transport error, or a command (together with the error the
`Send` of its response would return, for the commands that send one). -/
inductive RecvOutcome where
  | eof
  | recvError (e : String)
  | command (c : Command) (sendErr : Option String)

/-- One iteration's observation of the three signals the loop consults:
whether the stream's context is already done, whether the request's own
deadline/cancellation has already fired, and — when neither non-blocking
check fires — what the blocking `Recv` returns. A deadline that elapses
while `Recv` is blocked appears as `recvError` (the stream is opened on
the request's context, so its cancellation fails the pending receive),
not as `ctxDone`: the `select` in the source has a `default` branch, so
the two done-channels are only polled between receives. -/
structure LoopEvent where
  streamDone : Bool
  ctxDone : Bool
  recv : RecvOutcome

/-- How a session ended. -/
inductive SessionEnd where
  | streamCompleted
  | deadlinePoll
  | cleanEOF
  | recvFailed
  | dispatchFailed
  | starved
deriving DecidableEq

/-- The synthesized timeout message of the deadline branch:
`fmt.Sprintf("timed out waiting for middleware '%s'", metadata.Name)`. -/
def timeoutMessage (name : String) : String :=
  "timed out waiting for middleware '" ++ name ++ "'"

/-- The `for { select { ... } }` receive loop of the middleware returned
by `newGRPCMiddleware`, driven by the per-iteration observations
`events`. Each iteration: if the stream's context is done, return with
the state untouched; else if the request's deadline has fired, return a
synthesized 500 naming the plugin; else receive — `io.EOF` returns with
the state untouched, a receive error returns a 500 carrying the error
text, and a command is dispatched (a dispatch error returns a 500
carrying the error text, otherwise the loop continues). Exhausting
`events` leaves the session still running (`starved`).

(When both done-channels are ready Go's `select` picks one at random;
the model resolves that tie toward the stream's channel. No theorem
below depends on the tie.) -/
def sessionLoop (h : RequestCtx → RequestCtx) (name : String) :
    RequestCtx → List LoopEvent → RequestCtx × SessionEnd
  | ctx, [] => (ctx, .starved)
  | ctx, ev :: rest =>
    if ev.streamDone then (ctx, .streamCompleted)
    else if ev.ctxDone then
      (ctxError ctx (timeoutMessage name) 500, .deadlinePoll)
    else
      match ev.recv with
      | .eof => (ctx, .cleanEOF)
      | .recvError e => (ctxError ctx e 500, .recvFailed)
      | .command c sendErr =>
        let r := commandHandler h sendErr ctx c
        match r.2.2 with
        | some e => (ctxError r.1 e 500, .dispatchFailed)
        | none => sessionLoop h name r.1 rest

/-- The state after dispatching one command whose send (if any)
succeeds. -/
def dispatchState (h : RequestCtx → RequestCtx) (ctx : RequestCtx)
    (c : Command) : RequestCtx :=
  (commandHandler h none ctx c).1

/-- The state after dispatching a list of commands in order, all sends
succeeding. -/
def runCommands (h : RequestCtx → RequestCtx) (ctx : RequestCtx)
    (cs : List Command) : RequestCtx :=
  cs.foldl (dispatchState h) ctx

/-- The loop events of a list of commands arriving in order, with neither
done-channel ready and every send succeeding. -/
def commandEvents (cs : List Command) : List LoopEvent :=
  cs.map (fun c => ⟨false, false, .command c none⟩)

/-- A sample request state: `GET http://localhost/api` with one header
and empty bodies. -/
def ctx0 : RequestCtx :=
  { method := "GET", uri := "http://localhost/api",
    rawReqHeaders := [("Accept", "*")], reqHeaders := [("Accept", "*")],
    reqBody := "", respHeaders := [], respStatus := 200, respBody := "" }

/-- A request state carrying two same-named headers (HTTP permits
repeated header fields; fasthttp stores each received line as its own
entry). -/
def ctxDup : RequestCtx :=
  { ctx0 with
    rawReqHeaders := [("X-Tag", "1"), ("X-Tag", "2")]
    reqHeaders := [("X-Tag", "1"), ("X-Tag", "2")] }

/-! ## The gRPC connector (`src/pkg/components/pluggable/grpc.go`)

`components.Pluggable` is the capability descriptor `{Name, Type,
Version}`; its `Type` field is a string-typed tag. -/

structure Pluggable where
  name : String
  type : String
  version : String
deriving DecidableEq

/-- The derived local socket address of a component
(`GRPCConnector.socketPathFor`):
`fmt.Sprintf("%s/dapr-%s.%s-%s-%s.sock", socketsFolder, g.pluggable.Type,
g.pluggable.Name, g.pluggable.Version, componentName)`. `socketsFolder`
is read once from the `DAPR_PLUGGABLE_COMPONENTS_SOCKETS_FOLDER`
environment variable, defaulting to `/var/run`; it is a parameter here. -/
def socketPathFor (socketsFolder : String) (p : Pluggable)
    (componentName : String) : String :=
  socketsFolder ++ "/dapr-" ++ p.type ++ "." ++ p.name ++ "-" ++ p.version
    ++ "-" ++ componentName ++ ".sock"

/-- The transport-level calls `Dial` makes, in order. -/
inductive ConnectorEvent where
  | dialAttempt (address : String)
  | pingAttempt (waitForReady : Bool)
deriving DecidableEq

/-- What a run of `Dial` performed and returned. -/
structure DialResult where
  events : List ConnectorEvent
  error : Option String
deriving DecidableEq

/-- The wrapped transport error of `Dial`:
`errors.Wrapf(err, "unable to open GRPC connection using socket '%s'",
udsSocket)`, whose message is the formatted text, a colon and a space,
then the cause's message. -/
def wrapDialError (address cause : String) : String :=
  "unable to open GRPC connection using socket '" ++ address ++ "': " ++ cause

/-- `GRPCConnector.Dial(componentName, ...)`: derive the `unix://` socket
address, open the gRPC channel there (with insecure local transport
credentials appended to the options), and on success immediately `Ping`.
`grpcDial address` is the outcome of `grpc.Dial` at that address (`none`
= a channel was opened) and `pingErr` the outcome of the subsequent
`Client.Ping(g.Context, &emptypb.Empty{}, grpc.WaitForReady(true))`; both
are parameters, so the theorems hold for every transport behaviour. The
`pingAttempt true` event records that the ping is issued with the
wait-for-ready call option. -/
def Dial (grpcDial : String → Option String) (pingErr : Option String)
    (socketsFolder : String) (p : Pluggable) (componentName : String) :
    DialResult :=
  let udsSocket := "unix://" ++ socketPathFor socketsFolder p componentName
  match grpcDial udsSocket with
  | some e => ⟨[.dialAttempt udsSocket], some (wrapDialError udsSocket e)⟩
  | none => ⟨[.dialAttempt udsSocket, .pingAttempt true], pingErr⟩

/-! ## The capability loader (`src/pkg/runtime/options.go`)

`components.Type` is a string-typed tag whose enumerated constants
(`components.State`, `components.PubSub`, ..., referenced by the `init`
of `options.go`) are declared outside the staged sources; only their
identity and pairwise distinctness matter to the code under `src/`, so
the tag is modelled as an inductive with one token per constant plus
`other` for every remaining string value. -/

inductive ComponentType where
  | state
  | pubsub
  | inputBinding
  | outputBinding
  | httpMiddleware
  | configuration
  | secret
  | lock
  | nameResolution
  | other (s : String)
deriving DecidableEq

/-- A discovered pluggable-component descriptor as the loader consumes it
(`pluggable.Component`): name, capability-type tag and version. -/
structure PluggableComponent where
  name : String
  type : ComponentType
  version : String
deriving DecidableEq

/-- Modelled from the spec: `pluggable.MustLoad[T]` (not under `src/`)
turns a discovered descriptor into a live capability of type `T`; §4.3
only needs the capability to be "a typed thing constructed from a
descriptor", so a constructed capability is represented by its
descriptor. -/
def MustLoad (pc : PluggableComponent) : PluggableComponent := pc

/-- `runtimeOpts`: the accumulating configuration object, one list of
capabilities per capability kind. -/
structure RuntimeOpts where
  secretStores : List PluggableComponent
  states : List PluggableComponent
  configurations : List PluggableComponent
  locks : List PluggableComponent
  pubsubs : List PluggableComponent
  nameResolutions : List PluggableComponent
  inputBindings : List PluggableComponent
  outputBindings : List PluggableComponent
  httpMiddleware : List PluggableComponent
deriving DecidableEq

/-- The zero-valued `runtimeOpts` the options are folded into. -/
def emptyOpts : RuntimeOpts := ⟨[], [], [], [], [], [], [], [], []⟩

/-- `WithSecretStores`: append secret store components. -/
def WithSecretStores (xs : List PluggableComponent) (o : RuntimeOpts) : RuntimeOpts :=
  { o with secretStores := o.secretStores ++ xs }

/-- `WithStates`: append state store components. -/
def WithStates (xs : List PluggableComponent) (o : RuntimeOpts) : RuntimeOpts :=
  { o with states := o.states ++ xs }

/-- `WithConfigurations`: append configuration store components. -/
def WithConfigurations (xs : List PluggableComponent) (o : RuntimeOpts) : RuntimeOpts :=
  { o with configurations := o.configurations ++ xs }

/-- `WithLocks`: append lock components. -/
def WithLocks (xs : List PluggableComponent) (o : RuntimeOpts) : RuntimeOpts :=
  { o with locks := o.locks ++ xs }

/-- `WithPubSubs`: append pubsub components. -/
def WithPubSubs (xs : List PluggableComponent) (o : RuntimeOpts) : RuntimeOpts :=
  { o with pubsubs := o.pubsubs ++ xs }

/-- `WithNameResolutions`: append name resolution components. -/
def WithNameResolutions (xs : List PluggableComponent) (o : RuntimeOpts) : RuntimeOpts :=
  { o with nameResolutions := o.nameResolutions ++ xs }

/-- `WithInputBindings`: append input binding components. -/
def WithInputBindings (xs : List PluggableComponent) (o : RuntimeOpts) : RuntimeOpts :=
  { o with inputBindings := o.inputBindings ++ xs }

/-- `WithOutputBindings`: append output binding components. -/
def WithOutputBindings (xs : List PluggableComponent) (o : RuntimeOpts) : RuntimeOpts :=
  { o with outputBindings := o.outputBindings ++ xs }

/-- `WithHTTPMiddleware`: append HTTP middleware components. -/
def WithHTTPMiddleware (xs : List PluggableComponent) (o : RuntimeOpts) : RuntimeOpts :=
  { o with httpMiddleware := o.httpMiddleware ++ xs }

/-- `withOpts`: apply the given options to the runtime configuration in
order. -/
def withOpts (opts : List (RuntimeOpts → RuntimeOpts)) (o : RuntimeOpts) :
    RuntimeOpts :=
  opts.foldl (fun acc opt => opt acc) o

/-- The `pluggableOptions` map as populated by the `init` of
`options.go`: one loader per capability-type constant, each of shape
`func(pc pluggable.Component) Option { return add(pluggable.MustLoad[T](pc)) }`
(`useOption`); unregistered tags are absent. -/
def pluggableOptions :
    ComponentType → Option (PluggableComponent → RuntimeOpts → RuntimeOpts)
  | .state => some (fun pc => WithStates [MustLoad pc])
  | .pubsub => some (fun pc => WithPubSubs [MustLoad pc])
  | .inputBinding => some (fun pc => WithInputBindings [MustLoad pc])
  | .outputBinding => some (fun pc => WithOutputBindings [MustLoad pc])
  | .httpMiddleware => some (fun pc => WithHTTPMiddleware [MustLoad pc])
  | .configuration => some (fun pc => WithConfigurations [MustLoad pc])
  | .secret => some (fun pc => WithSecretStores [MustLoad pc])
  | .lock => some (fun pc => WithLocks [MustLoad pc])
  | .nameResolution => some (fun pc => WithNameResolutions [MustLoad pc])
  | .other _ => none

/-- The loop body of `WithPluggables`: append the registered loader's
option when the descriptor's type is known, keep the list unchanged
otherwise ("ignoring unknown components"). -/
def optStep (opts : List (RuntimeOpts → RuntimeOpts)) (pc : PluggableComponent) :
    List (RuntimeOpts → RuntimeOpts) :=
  match pluggableOptions pc.type with
  | some load => opts ++ [load pc]
  | none => opts

/-- The option list `WithPluggables` accumulates over the discovered
descriptors, in order. -/
def pluggableOptsList (pluggables : List PluggableComponent) :
    List (RuntimeOpts → RuntimeOpts) :=
  pluggables.foldl optStep []

/-- `WithPluggables`: parse each discovered descriptor and fold the
resulting options into the configuration (`withOpts(opts...)`). -/
def WithPluggables (pluggables : List PluggableComponent) :
    RuntimeOpts → RuntimeOpts :=
  withOpts (pluggableOptsList pluggables)

/-! ## The capability registry

Modelled from the spec: the registry implementation
(`pluggable.AddRegistryFor`, `pluggable.Register` and the package-level
`registries` map) is not under `src/`; only its test
(`src/pkg/components/pluggable/registry_test.go`) and its callers are.
Per §4.2 and the test's assertions: `registries` maps a capability-type
tag to a registration closure installed by `AddRegistryFor`;
`Register(pluggables...)` looks each descriptor's type up, and on a miss
logs one warning (`Warnf`) and registers nothing for that descriptor —
no error is raised and no constructor (factory) runs — while on a hit it
invokes the stored registration closure (which calls the registry's
`RegisterComponent`, not the factory) and counts the descriptor as
registered. The observable effects are tracked as counters. -/

structure RegistryState where
  registries : List ComponentType
  warnfCalls : Nat
  registerComponentCalls : Nat
  factoryCalls : Nat
deriving DecidableEq

/-- Modelled from the spec: `pluggable.AddRegistryFor(type, registerFunc,
factory)` stores (or overwrites) the registration closure for `type`. -/
def AddRegistryFor (ty : ComponentType) (st : RegistryState) : RegistryState :=
  if st.registries.contains ty then st
  else { st with registries := st.registries ++ [ty] }

/-- Modelled from the spec: `pluggable.Register(pluggables...)` resolves
each descriptor against the registries map and returns how many were
registered; an absent type logs one warning and contributes zero, a
present type invokes its registration closure and contributes one. No
step raises an error, and the capability factory is never invoked during
registration. -/
def Register (st : RegistryState) (pluggables : List PluggableComponent) :
    RegistryState × Nat :=
  pluggables.foldl
    (fun acc pc =>
      if acc.1.registries.contains pc.type then
        ({ acc.1 with registerComponentCalls := acc.1.registerComponentCalls + 1 },
          acc.2 + 1)
      else
        ({ acc.1 with warnfCalls := acc.1.warnfCalls + 1 }, acc.2))
    (st, 0)

/-! ## Helper lemmas: strings -/

/-- Appending strings appends their character data. -/
theorem strdata (s t : String) : (s ++ t).data = s.data ++ t.data := by
  cases s; cases t; rfl

/-- Strings with the same character data are equal. -/
theorem strext (s t : String) (h : s.data = t.data) : s = t := by
  cases s; cases t; cases h; rfl

/-! ## Helper lemmas: header collections -/

/-- Looking a key up after a `headerSet`: the set key now maps to the set
value (its first occurrence was overwritten, or it was appended), every
other key is untouched. -/
theorem lookupHdr_headerSet (l : List (String × String)) (k v j : String) :
    lookupHdr (headerSet l k v) j = if k = j then some v else lookupHdr l j := by
  induction l with
  | nil => by_cases h : k = j <;> simp [headerSet, lookupHdr, h]
  | cons a rest ih =>
    obtain ⟨ak, av⟩ := a
    by_cases hak : ak = k
    · subst hak
      by_cases hkj : ak = j <;> simp [headerSet, lookupHdr, hkj]
    · by_cases hkj : k = j
      · subst hkj
        simp [headerSet, lookupHdr, hak, ih]
      · by_cases haj : ak = j
        · subst haj
          simp [headerSet, lookupHdr, hak, hkj]
        · simp [headerSet, lookupHdr, hak, hkj, haj, ih]

/-- First-match lookup distributes over append, preferring the left
part. -/
theorem lookupHdr_append (xs ys : List (String × String)) (j : String) :
    lookupHdr (xs ++ ys) j = orElseOpt (lookupHdr xs j) (lookupHdr ys j) := by
  induction xs with
  | nil => simp [lookupHdr, orElseOpt]
  | cons a rest ih => by_cases h : a.1 = j <;> simp [lookupHdr, h, ih, orElseOpt]

/-- Choosing against `none` on the right changes nothing. -/
theorem orElseOpt_none_right (o : Option String) : orElseOpt o none = o := by
  cases o <;> rfl

/-- Last-match lookup on a cons: the later entries of `rest` win over the
head. -/
theorem lastValue_cons (a : String × String) (rest : List (String × String))
    (j : String) :
    lastValue (a :: rest) j =
      orElseOpt (lastValue rest j) (if a.1 = j then some a.2 else none) := by
  by_cases h : a.1 = j <;>
    simp [lastValue, List.reverse_cons, lookupHdr_append, lookupHdr, h]

/-- Looking a key up in a `foldPut`: the last matching entry of the
folded list wins, then the accumulator is consulted. -/
theorem lookupHdr_foldPut (l : List (String × String)) :
    ∀ (acc : List (String × String)) (j : String),
      lookupHdr (foldPut acc l) j = orElseOpt (lastValue l j) (lookupHdr acc j) := by
  induction l with
  | nil => intro acc j; simp [foldPut, lastValue, lookupHdr, orElseOpt]
  | cons a rest ih =>
    intro acc j
    rw [show foldPut acc (a :: rest) = foldPut (headerSet acc a.1 a.2) rest from rfl,
      ih, lookupHdr_headerSet, lastValue_cons]
    cases lastValue rest j <;> by_cases h : a.1 = j <;> simp [orElseOpt, h]

/-- Looking a key up in the collected Go map retrieves the value of the
last entry of that key, in visit order. -/
theorem lookupHdr_mapCollect (l : List (String × String)) (j : String) :
    lookupHdr (mapCollect l) j = lastValue l j := by
  rw [mapCollect, lookupHdr_foldPut]
  exact (orElseOpt_none_right _)

/-! ## Helper lemmas: the receive loop -/

/-- A dispatch whose send (if any) succeeds reports no error. -/
theorem commandHandler_err_none (h : RequestCtx → RequestCtx) (ctx : RequestCtx)
    (c : Command) : (commandHandler h none ctx c).2.2 = none := by
  cases c <;> rfl

/-- One successfully-dispatched command advances the loop's state. -/
theorem sessionLoop_command (h : RequestCtx → RequestCtx) (name : String)
    (ctx : RequestCtx) (c : Command) (rest : List LoopEvent) :
    sessionLoop h name ctx (⟨false, false, .command c none⟩ :: rest) =
      sessionLoop h name (dispatchState h ctx c) rest := by
  simp [sessionLoop, commandHandler_err_none, dispatchState]

/-- A run of successfully-dispatched commands folds into the state, and
the loop proceeds on the remaining events. -/
theorem sessionLoop_commandEvents (h : RequestCtx → RequestCtx) (name : String)
    (cs : List Command) :
    ∀ (ctx : RequestCtx) (rest : List LoopEvent),
      sessionLoop h name ctx (commandEvents cs ++ rest) =
        sessionLoop h name (runCommands h ctx cs) rest := by
  induction cs with
  | nil => intro ctx rest; rfl
  | cons c cst ih =>
    intro ctx rest
    rw [show commandEvents (c :: cst) ++ rest
        = ⟨false, false, .command c none⟩ :: (commandEvents cst ++ rest) from rfl,
      sessionLoop_command, ih]
    rfl

/-! ## Helper lemmas: the loader -/

/-- Applying a concatenation of options applies the first batch, then the
second. -/
theorem withOpts_append (o1 o2 : List (RuntimeOpts → RuntimeOpts)) (o : RuntimeOpts) :
    withOpts (o1 ++ o2) o = withOpts o2 (withOpts o1 o) := by
  simp [withOpts, List.foldl_append]

/-- One `optStep` splits off its contribution. -/
theorem optStep_eq (acc : List (RuntimeOpts → RuntimeOpts))
    (pc : PluggableComponent) : optStep acc pc = acc ++ optStep [] pc := by
  cases hopt : pluggableOptions pc.type <;> simp [optStep, hopt]

/-- The accumulated option list of `WithPluggables`, with a general
accumulator. -/
theorem pluggableOptsList_foldl (ps : List PluggableComponent) :
    ∀ acc : List (RuntimeOpts → RuntimeOpts),
      ps.foldl optStep acc = acc ++ pluggableOptsList ps := by
  induction ps with
  | nil => intro acc; simp [pluggableOptsList]
  | cons pc ps ih =>
    intro acc
    simp only [pluggableOptsList, List.foldl_cons]
    rw [ih (optStep acc pc), ih (optStep [] pc), optStep_eq acc pc,
      List.append_assoc]

/-- `WithPluggables` on a cons: resolve the head (applying its loader's
option when its type is registered, skipping it otherwise), then the
tail. -/
theorem WithPluggables_cons (pc : PluggableComponent) (ps : List PluggableComponent)
    (o : RuntimeOpts) :
    WithPluggables (pc :: ps) o
      = WithPluggables ps (withOpts (optStep [] pc) o) := by
  simp only [WithPluggables, pluggableOptsList, List.foldl_cons]
  rw [pluggableOptsList_foldl ps (optStep [] pc), withOpts_append]
  simp only [pluggableOptsList]

/-- The state-store capabilities after `WithPluggables`: the prior ones,
then one constructed capability per state-typed descriptor, in order;
descriptors of other known kinds land in their own lists and unknown
kinds are skipped. -/
theorem states_WithPluggables (ps : List PluggableComponent) :
    ∀ o : RuntimeOpts,
      (WithPluggables ps o).states
        = o.states
          ++ (ps.filter (fun pc => decide (pc.type = ComponentType.state))).map
              MustLoad := by
  induction ps with
  | nil => intro o; simp [WithPluggables, pluggableOptsList, withOpts]
  | cons pc ps ih =>
    intro o
    obtain ⟨n, ty, v⟩ := pc
    rw [WithPluggables_cons, ih]
    cases ty <;>
      simp [optStep, pluggableOptions, withOpts, MustLoad, WithStates,
        WithPubSubs, WithInputBindings, WithOutputBindings, WithHTTPMiddleware,
        WithConfigurations, WithSecretStores, WithLocks, WithNameResolutions,
        List.filter, List.append_assoc]

/-- A key looks up to something exactly when it occurs among the keys. -/
theorem lookupHdr_isSome (l : List (String × String)) (j : String) :
    (lookupHdr l j).isSome = true ↔ j ∈ l.map Prod.fst := by
  induction l with
  | nil => simp [lookupHdr]
  | cons a rest ih =>
    by_cases h : a.1 = j
    · simp [lookupHdr, h]
    · have h2 : ¬ j = a.1 := fun e => h e.symm
      simp [lookupHdr, h, h2, ih]

/-- The collected Go map has an entry for a name exactly when some
received header bears that name. -/
theorem mapCollect_isSome (l : List (String × String)) (j : String) :
    (lookupHdr (mapCollect l) j).isSome = true ↔ j ∈ l.map Prod.fst := by
  rw [lookupHdr_mapCollect, lastValue, lookupHdr_isSome, List.map_reverse,
    List.mem_reverse]

/-! ## The claims -/

/-- C10: command dispatch returns an error only for the four read-type
commands (`GetRequestBody`, `GetResponseBody`, `GetRequestHeaders`,
`GetResponseHeaders`), and that error is exactly the response callback's
error; every write-type command, `ExecuteNext`, and a `Command` with no
recognised variant populated is handled without producing an error and
without sending any response (so a malformed or empty command is silently
ignored rather than ending the session). -/
theorem commandHandler_error_only_for_reads (h : RequestCtx → RequestCtx)
    (sendErr : Option String) (ctx : RequestCtx) (cmd : Command) :
    (commandHandler h sendErr ctx cmd).2.2
        = (if cmd.isReadCommand then sendErr else none)
      ∧ (commandHandler h sendErr ctx cmd).2.1 = readResponse ctx cmd := by
  cases cmd <;> simp [commandHandler, readResponse, Command.isReadCommand]

/-- C2: a session that dispatches `ExecuteNext` (which invokes the next
handler synchronously, in-line) and then `SetResponseBody{data}`, after
any prefix of successfully dispatched commands, ends (on clean stream
end) with a final response whose body is exactly `data`, for every
behaviour `h` of the invoked next handler. -/
theorem execNext_then_setResponseBody (h : RequestCtx → RequestCtx) (name : String)
    (ctx : RequestCtx) (pre : List Command) (data : String) :
    sessionLoop h name ctx
        (commandEvents (pre ++ [.execNext, .setRespBody data])
          ++ [⟨false, false, .eof⟩])
      = ({ h (runCommands h ctx pre) with respBody := data }, .cleanEOF) := by
  rw [sessionLoop_commandEvents]
  have hrun : runCommands h ctx (pre ++ [.execNext, .setRespBody data])
      = { h (runCommands h ctx pre) with respBody := data } := by
    rw [runCommands, List.foldl_append]
    rfl
  rw [hrun]
  rfl

/-- C5: after any prefix of successfully dispatched commands, a transport
(receive) error ends the session immediately with a synthesized 500
response carrying the error text; a clean end of stream (`io.EOF`, or the
stream's context already done) ends the session with the state exactly as the
commands (including any `ExecuteNext`) left it, unaltered; and a dispatch
(send) error likewise ends the session immediately with a synthesized 500
response. -/
theorem session_end_error_and_clean_eof (h : RequestCtx → RequestCtx)
    (name : String) (ctx : RequestCtx) (cs : List Command) (e e2 : String) :
    sessionLoop h name ctx (commandEvents cs ++ [⟨false, false, .recvError e⟩])
        = (ctxError (runCommands h ctx cs) e 500, .recvFailed)
      ∧ sessionLoop h name ctx (commandEvents cs ++ [⟨false, false, .eof⟩])
        = (runCommands h ctx cs, .cleanEOF)
      ∧ sessionLoop h name ctx (commandEvents cs ++ [⟨true, false, .eof⟩])
        = (runCommands h ctx cs, .streamCompleted)
      ∧ sessionLoop h name ctx
            (commandEvents cs ++ [⟨false, false, .command .getReqBody (some e2)⟩])
        = (ctxError (runCommands h ctx cs) e2 500, .dispatchFailed) := by
  refine ⟨?_, ?_, ?_, ?_⟩ <;> rw [sessionLoop_commandEvents] <;> rfl

/-- C1 (amended): when the request's deadline has fired by the time the
loop's non-blocking poll runs (before a receive is attempted), the
session terminates with a synthesized HTTP 500 response whose message
names the unresponsive plugin, whatever the receive would have yielded
and whatever events would have followed. (The wait is a sequential poll,
not a genuine three-way race: the `select` has a `default` branch, so
this branch is observed only between receives; a deadline firing during
a blocked receive surfaces as a receive error instead, see the
counterexample.) -/
theorem middleware_deadline_poll_names_plugin (h : RequestCtx → RequestCtx)
    (name : String) (ctx : RequestCtx) (r : RecvOutcome) (rest : List LoopEvent) :
    sessionLoop h name ctx (⟨false, true, r⟩ :: rest)
        = (ctxError ctx (timeoutMessage name) 500, .deadlinePoll)
      ∧ name.data <:+: (ctxError ctx (timeoutMessage name) 500).respBody.data := by
  refine ⟨rfl, ?_⟩
  refine ⟨"timed out waiting for middleware '".data, "'".data, ?_⟩
  show _ = (timeoutMessage name).data
  rw [timeoutMessage, strdata, strdata]

/-- C1 (counterexample): a session whose plugin never closes the stream
and whose deadline elapses while the loop is blocked in `Recv`. The
stream is opened on the request's own context, so the elapsed deadline
cancels the pending receive, which returns a transport error ("context
deadline exceeded") rather than `io.EOF`; this iteration is reachable
precisely because the `select` has a `default` branch: the two
done-channels were polled (not yet ready) and the loop then blocked in
`Recv`, so the deadline is not observed by the `ctx.Done()` branch. The
session does end with a 500, but its message is the receive error's
text, which does not name the plugin (here `"mw"`) — refuting the claim
that every deadline-first session ends with a message naming the
unresponsive plugin, and with it the claimed genuine three-way race. -/
theorem middleware_deadline_during_recv_not_named :
    sessionLoop id "mw" ctx0
        [⟨false, false, .recvError "context deadline exceeded"⟩]
      = (ctxError ctx0 "context deadline exceeded" 500, .recvFailed)
    ∧ (ctxError ctx0 "context deadline exceeded" 500).respStatus = 500
    ∧ ¬ ("mw".data <:+: "context deadline exceeded".data) :=
  ⟨rfl, rfl, by decide⟩

/-- C4 (amended): dispatching `GetRequestHeaders` returns the request's
method, its target URI, and its headers collected by visiting them in
receipt order into a `map[string]string`: the returned collection has an
entry for exactly the names that occur among the received headers, each
carrying the value of the last received header of that name — the map
itself carries no order, and among same-named headers only the last
received value survives (see the counterexample for the dropped
earlier value). -/
theorem getRequestHeaders_map_last_wins (h : RequestCtx → RequestCtx)
    (sendErr : Option String) (ctx : RequestCtx) :
    (commandHandler h sendErr ctx .getReqHeaders).2.1
        = some (.getReqHeaders ctx.method ctx.uri (mapCollect ctx.rawReqHeaders))
      ∧ (∀ j, lookupHdr (mapCollect ctx.rawReqHeaders) j
          = lastValue ctx.rawReqHeaders j)
      ∧ (∀ j, (lookupHdr (mapCollect ctx.rawReqHeaders) j).isSome = true
          ↔ j ∈ ctx.rawReqHeaders.map Prod.fst) :=
  ⟨rfl, fun j => lookupHdr_mapCollect _ j, fun j => mapCollect_isSome _ j⟩

/-- C4 (counterexample): the request `ctxDup` carries the header
`("X-Tag", "1")` followed by `("X-Tag", "2")`; `GetRequestHeaders`
returns the collection `[("X-Tag", "2")]`, from which the received
header `("X-Tag", "1")` is absent — refuting "no header received on the
request is absent from the returned collection" (a `map[string]string`
cannot hold two values for one name, so receipt order of same-named
headers is not preserved either). -/
theorem getRequestHeaders_drops_duplicate_header :
    ("X-Tag", "1") ∈ ctxDup.rawReqHeaders
      ∧ (commandHandler id none ctxDup .getReqHeaders).2.1
          = some (.getReqHeaders "GET" "http://localhost/api" [("X-Tag", "2")])
      ∧ ("X-Tag", "1") ∉ [("X-Tag", "2")] := by
  refine ⟨by decide, by decide, by decide⟩

/-- C6: address derivation is a deterministic function of (socket root,
capability type, plugin name, plugin version, capability instance name):
with the other four inputs fixed, the derived local addresses of two
descriptors agree exactly when their plugin names agree — identical
inputs give the identical address, and descriptors differing only in
name derive distinct addresses. -/
theorem socketPathFor_name_injective (socketsFolder ty v componentName n1 n2 :
    String) :
    socketPathFor socketsFolder ⟨n1, ty, v⟩ componentName
        = socketPathFor socketsFolder ⟨n2, ty, v⟩ componentName
      ↔ n1 = n2 := by
  constructor
  · intro heq
    have hd := congrArg String.data heq
    simp only [socketPathFor, strdata, List.append_assoc] at hd
    have h1 := List.append_cancel_left hd
    have h2 := List.append_cancel_left h1
    have h3 := List.append_cancel_left h2
    have h4 := List.append_cancel_left h3
    exact strext _ _ (List.append_cancel_right h4)
  · intro heq
    rw [heq]

/-- C7: `Dial` first opens the channel at the derived `unix://` address
and, exactly when that succeeds, immediately performs a `Ping` with the
wait-for-ready call option; it returns successfully exactly when both the
channel open and the ping succeed; and on transport failure its wrapped
error message contains the offending address. -/
theorem dial_opens_then_pings_with_wait_for_ready
    (grpcDial : String → Option String) (pingErr : Option String)
    (socketsFolder : String) (p : Pluggable) (componentName : String) :
    ((Dial grpcDial pingErr socketsFolder p componentName).error = none
        ↔ grpcDial ("unix://" ++ socketPathFor socketsFolder p componentName)
              = none
          ∧ pingErr = none)
      ∧ (Dial grpcDial pingErr socketsFolder p componentName).events
          = (match
              grpcDial ("unix://" ++ socketPathFor socketsFolder p componentName)
            with
            | some _ =>
                [.dialAttempt
                  ("unix://" ++ socketPathFor socketsFolder p componentName)]
            | none =>
                [.dialAttempt
                    ("unix://" ++ socketPathFor socketsFolder p componentName),
                  .pingAttempt true])
      ∧ (Dial grpcDial pingErr socketsFolder p componentName).error
          = (match
              grpcDial ("unix://" ++ socketPathFor socketsFolder p componentName)
            with
            | some e =>
                some (wrapDialError
                  ("unix://" ++ socketPathFor socketsFolder p componentName) e)
            | none => pingErr)
      ∧ ∀ e, ("unix://" ++ socketPathFor socketsFolder p componentName).data
          <:+: (wrapDialError
              ("unix://" ++ socketPathFor socketsFolder p componentName) e).data := by
  refine ⟨?_, ?_, ?_, ?_⟩
  · cases hd : grpcDial ("unix://" ++ socketPathFor socketsFolder p componentName) <;>
      simp [Dial, hd]
  · cases hd : grpcDial ("unix://" ++ socketPathFor socketsFolder p componentName) <;>
      simp [Dial, hd]
  · cases hd : grpcDial ("unix://" ++ socketPathFor socketsFolder p componentName) <;>
      simp [Dial, hd]
  · intro e
    refine ⟨"unable to open GRPC connection using socket '".data,
      ("': " ++ e).data, ?_⟩
    simp [wrapDialError, strdata, List.append_assoc]

/-- C8: the loader resolves each descriptor independently — a descriptor
whose type has no registered loader is skipped without error, and a
descriptor of a known type is constructed and appended to the capability
list of its kind, so multiple plugins of one capability type coexist. In
particular the sequence `[{state,a,v1}, {unknownType,b,v1}, {state,c,v1}]`
yields exactly two state capabilities (`a` and `c`), nothing else, and no
failure. -/
theorem withPluggables_skips_unknown_appends_known :
    WithPluggables
          [⟨"a", .state, "v1"⟩, ⟨"b", .other "unknownType", "v1"⟩,
            ⟨"c", .state, "v1"⟩]
          emptyOpts
        = { emptyOpts with
            states := [⟨"a", .state, "v1"⟩, ⟨"c", .state, "v1"⟩] }
      ∧ (∀ (ps : List PluggableComponent) (o : RuntimeOpts),
          (WithPluggables ps o).states
            = o.states
              ++ (ps.filter
                  (fun pc => decide (pc.type = ComponentType.state))).map MustLoad)
      ∧ (∀ (n v s : String) (ps : List PluggableComponent) (o : RuntimeOpts),
          WithPluggables (⟨n, .other s, v⟩ :: ps) o = WithPluggables ps o) := by
  refine ⟨by decide, fun ps o => states_WithPluggables ps o, ?_⟩
  intro n v s ps o
  rw [WithPluggables_cons]
  rfl

/-- C9: resolving a descriptor whose capability type has no registered
constructor never raises an error and never invokes any constructor —
the registry only logs one warning (`Warnf`) and reports zero
capabilities registered for that descriptor; every other counter,
including the factory-invocation counter, is unchanged. -/
theorem register_unknown_type_warns_zero (st : RegistryState)
    (pc : PluggableComponent)
    (habs : st.registries.contains pc.type = false) :
    Register st [pc] = ({ st with warnfCalls := st.warnfCalls + 1 }, 0) := by
  simp only [Register, List.foldl_cons, List.foldl_nil, habs]
  rfl

/-- C9 (witness): a registry holding only a `state` registration, asked
to register a descriptor of an unknown type: one warning, zero
registered. -/
theorem register_unknown_type_warns_zero_witness :
    Register ⟨[ComponentType.state], 0, 0, 0⟩ [⟨"b", .other "unknownType", "v1"⟩]
      = (⟨[ComponentType.state], 0 + 1, 0, 0⟩, 0) :=
  register_unknown_type_warns_zero ⟨[ComponentType.state], 0, 0, 0⟩
    ⟨"b", .other "unknownType", "v1"⟩ (by decide)

end Dapr
